import Mathlib

/-!
Shallow embedding of the WebAuthn-style authentication core of the Thalora
URL shortener (src/backend/src/auth/auth.rs, src/backend/src/auth/models.rs,
src/backend/src/database.rs), together with theorems settling the frozen
claims about it.

Conventions of the embedding:
* Rust `Vec<u8>` byte buffers are `List Nat` with entries below 256.
* Rust `u32` arithmetic is `Nat` with an explicit `% 2^32` where the source
  can overflow.
* Rust `String` is Lean `String`; `str::len` is the UTF-8 byte count
  (`String.utf8ByteSize`), exactly as in Rust.
* Fallible Rust functions return `Option`/`Except`.
* External library calls (the `base64` crate's `URL_SAFE_NO_PAD` engine,
  `serde_json` parsing, `str::trim`/`str::to_lowercase`) are modelled by
  executable Lean functions that follow the documented behaviour of those
  libraries on the fragments the source exercises.
-/

namespace Thalora

/-! ### Base64, URL-safe alphabet, no padding

Model of the `base64` crate's `URL_SAFE_NO_PAD` engine used by
`AuthService::encode_base64` / `AuthService::decode_base64`
(src/backend/src/auth/auth.rs lines 56-64).  The engine encodes with the
URL-safe alphabet (`A-Z a-z 0-9 - _`) and no `=` padding; its decoder
rejects characters outside the alphabet, rejects a leftover length of 1
modulo 4, and rejects non-zero trailing bits in the final partial group
(the crate's `InvalidByte` / `InvalidLength` / `InvalidLastSymbol`
errors, all collapsed here into `none`). -/

/-- Character of the URL-safe base64 alphabet at index `n < 64`. -/
def b64char (n : Nat) : Char :=
  if n < 26 then Char.ofNat (65 + n)
  else if n < 52 then Char.ofNat (97 + (n - 26))
  else if n < 62 then Char.ofNat (48 + (n - 52))
  else if n = 62 then '-'
  else '_'

/-- Index of a character in the URL-safe base64 alphabet, `none` when the
character is not in the alphabet (this is what makes the decoder reject
`=` padding and any other foreign byte). -/
def b64index (c : Char) : Option Nat :=
  if 65 ≤ c.toNat ∧ c.toNat ≤ 90 then some (c.toNat - 65)
  else if 97 ≤ c.toNat ∧ c.toNat ≤ 122 then some (c.toNat - 97 + 26)
  else if 48 ≤ c.toNat ∧ c.toNat ≤ 57 then some (c.toNat - 48 + 52)
  else if c.toNat = 45 then some 62
  else if c.toNat = 95 then some 63
  else none

/-- Sextet stream of the base64 encoding of a byte list: full groups of
three bytes yield four sextets, a final group of one or two bytes yields
two or three sextets whose unused low bits are zero. -/
def encodeSextets : List Nat → List Nat
  | [] => []
  | [b0] => [b0 / 4, b0 % 4 * 16]
  | [b0, b1] => [b0 / 4, b0 % 4 * 16 + b1 / 16, b1 % 16 * 4]
  | b0 :: b1 :: b2 :: rest =>
      b0 / 4 :: (b0 % 4 * 16 + b1 / 16) :: (b1 % 16 * 4 + b2 / 64) :: b2 % 64 ::
        encodeSextets rest

/-- Byte list decoded from a sextet stream: a final group of one sextet is
rejected (`InvalidLength`), and the unused low bits of a final group of
two or three sextets must be zero (`InvalidLastSymbol`). -/
def decodeSextets : List Nat → Option (List Nat)
  | [] => some []
  | [s0, s1] => if s1 % 16 = 0 then some [s0 * 4 + s1 / 16] else none
  | [s0, s1, s2] =>
      if s2 % 4 = 0 then some [s0 * 4 + s1 / 16, s1 % 16 * 16 + s2 / 4] else none
  | s0 :: s1 :: s2 :: s3 :: rest =>
      (decodeSextets rest).map fun bs =>
        (s0 * 4 + s1 / 16) :: (s1 % 16 * 16 + s2 / 4) :: (s2 % 4 * 64 + s3) :: bs
  | [_] => none

/-- Alphabet indices of a character list; `none` as soon as one character
is outside the URL-safe alphabet. -/
def b64indices : List Char → Option (List Nat)
  | [] => some []
  | c :: cs =>
      match b64index c, b64indices cs with
      | some n, some ns => some (n :: ns)
      | _, _ => none

/-- Model of `AuthService::encode_base64` (auth.rs line 57): URL-safe
unpadded base64 of a byte list. -/
def encode_base64 (data : List Nat) : String :=
  String.mk ((encodeSextets data).map b64char)

/-- Model of `AuthService::decode_base64` (auth.rs line 62): URL-safe
unpadded base64 decoding, `none` on any invalid input. -/
def decode_base64 (s : String) : Option (List Nat) :=
  (b64indices s.data).bind decodeSextets

theorem b64index_sound {c : Char} {n : Nat} (h : b64index c = some n) :
    n < 64 ∧ b64char n = c := by
  unfold b64index at h
  split at h
  · next h1 =>
    injection h with h
    subst h
    refine ⟨by omega, ?_⟩
    unfold b64char
    rw [if_pos (by omega)]
    have e : 65 + (c.toNat - 65) = c.toNat := by omega
    rw [e, Char.ofNat_toNat]
  · split at h
    · next h1 h2 =>
      injection h with h
      subst h
      refine ⟨by omega, ?_⟩
      unfold b64char
      rw [if_neg (by omega), if_pos (by omega)]
      have e : 97 + (c.toNat - 97 + 26 - 26) = c.toNat := by omega
      rw [e, Char.ofNat_toNat]
    · split at h
      · next h1 h2 h3 =>
        injection h with h
        subst h
        refine ⟨by omega, ?_⟩
        unfold b64char
        rw [if_neg (by omega), if_neg (by omega), if_pos (by omega)]
        have e : 48 + (c.toNat - 48 + 52 - 52) = c.toNat := by omega
        rw [e, Char.ofNat_toNat]
      · split at h
        · next h4 =>
          injection h with h
          subst h
          refine ⟨by omega, ?_⟩
          have hc : c = Char.ofNat c.toNat := (Char.ofNat_toNat c).symm
          rw [hc, h4]
          decide
        · split at h
          · next h5 =>
            injection h with h
            subst h
            refine ⟨by omega, ?_⟩
            have hc : c = Char.ofNat c.toNat := (Char.ofNat_toNat c).symm
            rw [hc, h5]
            decide
          · exact absurd h (by simp)

theorem b64indices_sound :
    ∀ {cs : List Char} {ns : List Nat}, b64indices cs = some ns →
      ns.map b64char = cs ∧ ∀ n ∈ ns, n < 64 := by
  intro cs
  induction cs with
  | nil => intro ns h; simp only [b64indices] at h; injection h with h; subst h; simp
  | cons c cs ih =>
    intro ns h
    simp only [b64indices] at h
    cases hc : b64index c with
    | none => rw [hc] at h; exact absurd h (by simp)
    | some n =>
      cases hcs : b64indices cs with
      | none => rw [hc, hcs] at h; exact absurd h (by simp)
      | some ms =>
        rw [hc, hcs] at h
        injection h with h
        subst h
        obtain ⟨hmap, hlt⟩ := ih hcs
        obtain ⟨hn, hchar⟩ := b64index_sound hc
        refine ⟨by simp [hchar, hmap], ?_⟩
        intro m hm
        rcases List.mem_cons.mp hm with rfl | hm
        · exact hn
        · exact hlt m hm

theorem decodeSextets_canonical :
    ∀ (ss : List Nat), (∀ x ∈ ss, x < 64) → ∀ bs, decodeSextets ss = some bs →
      encodeSextets bs = ss
  | [], _, bs, h => by
      simp only [decodeSextets] at h
      injection h with h
      subst h
      rfl
  | [s0], _, bs, h => by
      simp only [decodeSextets] at h
      exact Option.noConfusion h
  | [s0, s1], hlt, bs, h => by
      simp only [decodeSextets] at h
      split at h
      · next h16 =>
        injection h with h
        subst h
        have h0 : s0 < 64 := hlt s0 (by simp)
        have h1 : s1 < 64 := hlt s1 (by simp)
        simp only [encodeSextets, List.cons.injEq, and_true]
        constructor <;> omega
      · exact absurd h (by simp)
  | [s0, s1, s2], hlt, bs, h => by
      simp only [decodeSextets] at h
      split at h
      · next h4 =>
        injection h with h
        subst h
        have h0 : s0 < 64 := hlt s0 (by simp)
        have h1 : s1 < 64 := hlt s1 (by simp)
        have h2 : s2 < 64 := hlt s2 (by simp)
        simp only [encodeSextets, List.cons.injEq, and_true]
        refine ⟨by omega, by omega, by omega⟩
      · exact absurd h (by simp)
  | s0 :: s1 :: s2 :: s3 :: rest, hlt, bs, h => by
      simp only [decodeSextets] at h
      cases hr : decodeSextets rest with
      | none => rw [hr] at h; exact absurd h (by simp)
      | some bs' =>
        rw [hr] at h
        simp only [Option.map_some'] at h
        injection h with h
        subst h
        have h0 : s0 < 64 := hlt s0 (by simp)
        have h1 : s1 < 64 := hlt s1 (by simp)
        have h2 : s2 < 64 := hlt s2 (by simp)
        have h3 : s3 < 64 := hlt s3 (by simp)
        have ih : encodeSextets bs' = rest :=
          decodeSextets_canonical rest (fun x hx => hlt x (by simp [hx])) bs' hr
        simp only [encodeSextets, List.cons.injEq]
        refine ⟨by omega, by omega, by omega, by omega, ih⟩

/-- C4: for every input string, `decode_base64` either returns bytes whose
re-encoding under `encode_base64` is the very input string (the input is
the canonical unpadded URL-safe base64 form of its decoding), or it fails;
being a total Lean function, the model never panics. -/
theorem decode_base64_canonical (s : String) :
    decode_base64 s = none ∨
      ∃ b, decode_base64 s = some b ∧ encode_base64 b = s := by
  cases h : decode_base64 s with
  | none => exact Or.inl rfl
  | some b =>
    refine Or.inr ⟨b, rfl, ?_⟩
    unfold decode_base64 at h
    cases hi : b64indices s.data with
    | none => rw [hi] at h; exact absurd h (by simp)
    | some ss =>
      rw [hi] at h
      simp only [Option.some_bind] at h
      obtain ⟨hmap, hlt⟩ := b64indices_sound hi
      have henc : encodeSextets b = ss := decodeSextets_canonical ss hlt b h
      unfold encode_base64
      rw [henc, hmap]

/-! ### JSON values and parsing

Model of the fragment of `serde_json` the source uses: `from_slice`
parsing of a byte buffer into a `Value`, indexing an object value by a
string key (yielding `Null` when the key is absent or the value is not an
object), and `as_str`.  The parser below covers JSON objects, arrays,
strings with the single-character escapes, integer numbers, booleans and
null; this is the fragment exercised by WebAuthn client data.  Recursion
is fuelled; the fuel supplied by `parseJsonBytes` is more than any input
of that length can consume. -/

/-- JSON values, as in `serde_json::Value` (numbers restricted to
integers, the only kind the modelled code paths can meet). -/
inductive Json where
  | null : Json
  | bool (b : Bool) : Json
  | num (n : Int) : Json
  | str (s : String) : Json
  | arr (items : List Json) : Json
  | obj (fields : List (String × Json)) : Json

/-- JSON insignificant whitespace bytes: space, tab, line feed, carriage
return. -/
def jsonWsByte (b : Nat) : Bool :=
  b == 32 || b == 9 || b == 10 || b == 13

/-- Drop leading JSON whitespace bytes. -/
def skipWs (bs : List Nat) : List Nat :=
  bs.dropWhile jsonWsByte

/-- Character denoted by a single-character JSON string escape. -/
def escChar (b : Nat) : Option Char :=
  if b = 34 then some (Char.ofNat 34)
  else if b = 92 then some (Char.ofNat 92)
  else if b = 47 then some (Char.ofNat 47)
  else if b = 110 then some (Char.ofNat 10)
  else if b = 116 then some (Char.ofNat 9)
  else if b = 114 then some (Char.ofNat 13)
  else if b = 98 then some (Char.ofNat 8)
  else if b = 102 then some (Char.ofNat 12)
  else none

/-- Body of a JSON string after its opening quote: bytes up to the closing
quote, with escapes resolved; control bytes below 0x20 are rejected. -/
def parseStringRest : List Nat → List Char → Option (String × List Nat)
  | [], _ => none
  | 34 :: rest, acc => some (String.mk acc.reverse, rest)
  | 92 :: e :: rest, acc =>
      match escChar e with
      | some c => parseStringRest rest (c :: acc)
      | none => none
  | 92 :: _, _ => none
  | b :: rest, acc =>
      if b < 32 then none else parseStringRest rest (Char.ofNat b :: acc)

/-- Digit run of a JSON integer: accumulated value, number of digits
consumed, remaining bytes. -/
def parseDigits : List Nat → Nat → Nat → Nat × Nat × List Nat
  | b :: rest, acc, count =>
      if 48 ≤ b ∧ b ≤ 57 then parseDigits rest (acc * 10 + (b - 48)) (count + 1)
      else (acc, count, b :: rest)
  | [], acc, count => (acc, count, [])

/-- JSON integer literal with optional leading minus sign. -/
def parseNum (bs : List Nat) : Option (Json × List Nat) :=
  match bs with
  | 45 :: rest =>
      match parseDigits rest 0 0 with
      | (v, count, rest') => if count = 0 then none else some (.num (-(v : Int)), rest')
  | _ =>
      match parseDigits bs 0 0 with
      | (v, count, rest') => if count = 0 then none else some (.num (v : Int), rest')

mutual

/-- One JSON value at the front of the byte list (leading whitespace
allowed), with the remaining bytes. -/
def parseValue : Nat → List Nat → Option (Json × List Nat)
  | 0, _ => none
  | fuel + 1, bs =>
      match skipWs bs with
      | 110 :: 117 :: 108 :: 108 :: rest => some (.null, rest)
      | 116 :: 114 :: 117 :: 101 :: rest => some (.bool true, rest)
      | 102 :: 97 :: 108 :: 115 :: 101 :: rest => some (.bool false, rest)
      | 34 :: rest =>
          match parseStringRest rest [] with
          | some (s, rest') => some (.str s, rest')
          | none => none
      | 91 :: rest =>
          match skipWs rest with
          | 93 :: rest' => some (.arr [], rest')
          | _ => parseItems fuel rest
      | 123 :: rest =>
          match skipWs rest with
          | 125 :: rest' => some (.obj [], rest')
          | _ => parseFields fuel rest
      | other => parseNum other

/-- Comma-separated items of a non-empty JSON array, up to and including
the closing bracket. -/
def parseItems : Nat → List Nat → Option (Json × List Nat)
  | 0, _ => none
  | fuel + 1, bs =>
      match parseValue fuel bs with
      | some (j, rest) =>
          match skipWs rest with
          | 44 :: rest' =>
              match parseItems fuel rest' with
              | some (.arr items, rest'') => some (.arr (j :: items), rest'')
              | _ => none
          | 93 :: rest' => some (.arr [j], rest')
          | _ => none
      | none => none

/-- Comma-separated fields of a non-empty JSON object, up to and including
the closing brace. -/
def parseFields : Nat → List Nat → Option (Json × List Nat)
  | 0, _ => none
  | fuel + 1, bs =>
      match skipWs bs with
      | 34 :: rest =>
          match parseStringRest rest [] with
          | some (key, rest') =>
              match skipWs rest' with
              | 58 :: rest'' =>
                  match parseValue fuel rest'' with
                  | some (v, rest3) =>
                      match skipWs rest3 with
                      | 44 :: rest4 =>
                          match parseFields fuel rest4 with
                          | some (.obj fields, rest5) =>
                              some (.obj ((key, v) :: fields), rest5)
                          | _ => none
                      | 125 :: rest4 => some (.obj [(key, v)], rest4)
                      | _ => none
                  | none => none
              | _ => none
          | none => none
      | _ => none

end

/-- Model of `serde_json::from_slice::<Value>`: parse the whole byte
buffer as one JSON value, allowing trailing whitespace only. -/
def parseJsonBytes (bs : List Nat) : Option Json :=
  match parseValue (2 * bs.length + 8) bs with
  | some (j, rest) => if skipWs rest = [] then some j else none
  | none => none

/-- Model of `value[key].as_str()`: the string value of a field of a JSON
object, `none` when the value is not an object, lacks the key, or the
field is not a string (serde's `Index` yields `Null` in those cases and
`as_str` maps it to `None`). -/
def Json.getStr (j : Json) (key : String) : Option String :=
  match j with
  | .obj fields =>
      match fields.find? (fun kv => kv.1 == key) with
      | some kv =>
          match kv.2 with
          | .str s => some s
          | _ => none
      | none => none
  | _ => none

/-! ### Credential data model (src/backend/src/auth/models.rs) -/

/-- Mirror of `AuthenticatorAttestationResponse` (models.rs lines
127-131). -/
structure AuthenticatorAttestationResponse where
  client_data_json : String
  attestation_object : String

/-- Mirror of `AuthenticatorAssertionResponse` (models.rs lines 133-140). -/
structure AuthenticatorAssertionResponse where
  client_data_json : String
  authenticator_data : String
  signature : String
  user_handle : Option String

/-- Mirror of the untagged `AuthenticatorResponse` enum (models.rs lines
120-125). -/
inductive AuthenticatorResponse where
  | AttestationResponse (response : AuthenticatorAttestationResponse)
  | AssertionResponse (response : AuthenticatorAssertionResponse)

/-- Mirror of `PublicKeyCredential` (models.rs lines 110-118). -/
structure PublicKeyCredential where
  id : String
  raw_id : String
  cred_type : String
  response : AuthenticatorResponse

/-- Error sites of `AuthService::validate_registration_credential` and
`AuthService::validate_authentication_credential`; the source signals each
with a distinct `anyhow!` message inside the single `AuthError` type, so
the constructors here are in bijection with those messages. -/
inductive ValidationError where
  | clientDataDecode : ValidationError
  | clientDataParse : ValidationError
  | missingChallenge : ValidationError
  | challengeMismatch : ValidationError
  | missingOrigin : ValidationError
  | originMismatch : ValidationError
  | credentialIdDecode : ValidationError
  | attestationDecode : ValidationError
  | wrongResponseType : ValidationError
deriving DecidableEq

/-! ### Credential validation (src/backend/src/auth/auth.rs lines 66-167) -/

/-- Model of `AuthService::validate_registration_credential` (auth.rs
lines 67-122).  Only an attestation-shaped response is accepted; the
client data is base64-decoded, parsed as JSON, its `challenge` then
`origin` fields are compared against the expected values, the credential
id is decoded from `raw_id`, the attestation payload is decoded, and the
placeholder public key is its first 65 bytes — or 65 zero bytes when the
payload is shorter (the source's explicit development fallback). -/
def validate_registration_credential (credential : PublicKeyCredential)
    (expected_challenge expected_origin : String) :
    Except ValidationError (List Nat × List Nat) :=
  match credential.response with
  | .AttestationResponse response =>
      match decode_base64 response.client_data_json with
      | none => .error .clientDataDecode
      | some client_data_bytes =>
          match parseJsonBytes client_data_bytes with
          | none => .error .clientDataParse
          | some client_data =>
              match client_data.getStr "challenge" with
              | none => .error .missingChallenge
              | some received_challenge =>
                  if received_challenge ≠ expected_challenge then
                    .error .challengeMismatch
                  else
                    match client_data.getStr "origin" with
                    | none => .error .missingOrigin
                    | some received_origin =>
                        if received_origin ≠ expected_origin then
                          .error .originMismatch
                        else
                          match decode_base64 credential.raw_id with
                          | none => .error .credentialIdDecode
                          | some credential_id =>
                              match decode_base64 response.attestation_object with
                              | none => .error .attestationDecode
                              | some attestation_object =>
                                  let public_key :=
                                    if 65 ≤ attestation_object.length then
                                      attestation_object.take 65
                                    else
                                      List.replicate 65 0
                                  .ok (credential_id, public_key)
  | .AssertionResponse _ => .error .wrongResponseType

/-- Model of `AuthService::validate_authentication_credential` (auth.rs
lines 124-167).  Only an assertion-shaped response is accepted; the same
challenge and origin checks run against the assertion's client data, and
on success the function returns `stored_counter + 1` in `u32` arithmetic.
The stored public key and the response's `authenticator_data`,
`signature` and `user_handle` fields are never examined (the source skips
signature verification and counter parsing). -/
def validate_authentication_credential (credential : PublicKeyCredential)
    (expected_challenge expected_origin : String)
    (_stored_public_key : List Nat) (stored_counter : Nat) :
    Except ValidationError Nat :=
  match credential.response with
  | .AssertionResponse response =>
      match decode_base64 response.client_data_json with
      | none => .error .clientDataDecode
      | some client_data_bytes =>
          match parseJsonBytes client_data_bytes with
          | none => .error .clientDataParse
          | some client_data =>
              match client_data.getStr "challenge" with
              | none => .error .missingChallenge
              | some received_challenge =>
                  if received_challenge ≠ expected_challenge then
                    .error .challengeMismatch
                  else
                    match client_data.getStr "origin" with
                    | none => .error .missingOrigin
                    | some received_origin =>
                        if received_origin ≠ expected_origin then
                          .error .originMismatch
                        else
                          .ok ((stored_counter + 1) % 4294967296)
  | .AttestationResponse _ => .error .wrongResponseType

/-! ### String normalization (`str::trim`, `str::to_lowercase`) -/

/-- Membership in the Unicode `White_Space` set, the characters
`str::trim` strips from both ends of a Rust string. -/
def rustIsWhitespace (c : Char) : Bool :=
  c.toNat == 9 || c.toNat == 10 || c.toNat == 11 || c.toNat == 12 ||
    c.toNat == 13 || c.toNat == 32 || c.toNat == 133 || c.toNat == 160 ||
    c.toNat == 5760 || (8192 ≤ c.toNat && c.toNat ≤ 8202) ||
    c.toNat == 8232 || c.toNat == 8233 || c.toNat == 8239 ||
    c.toNat == 8287 || c.toNat == 12288

/-- Model of `str::trim`: remove `White_Space` characters from both ends. -/
def rustTrim (s : String) : String :=
  String.mk (((s.data.dropWhile rustIsWhitespace).reverse.dropWhile
    rustIsWhitespace).reverse)

/-- ASCII case map used by `rustToLowercase`. -/
def rustToLowerChar (c : Char) : Char :=
  if 65 ≤ c.toNat ∧ c.toNat ≤ 90 then Char.ofNat (c.toNat + 32) else c

/-- Model of `str::to_lowercase` restricted to its ASCII fragment
(characters outside `A`-`Z` are mapped to themselves; the full Unicode
case tables of the standard library are outside the scope of this
embedding, and every lowering the claims exercise is ASCII). -/
def rustToLowercase (s : String) : String :=
  String.mk (s.data.map rustToLowerChar)

/-! ### User repository (src/backend/src/database.rs lines 532-722)

The storage engine itself is an external collaborator reached over SQL;
the repository is modelled as a list of user rows with a next-id
counter. -/

/-- Mirror of the `users` row / `UserEntry` as used by the auth handlers
(id, username, email, passkey material, counter; timestamps omitted — no
claim mentions them). -/
structure UserEntry where
  id : Int
  username : String
  email : String
  passkey_public_key : List Nat
  passkey_credential_id : List Nat
  passkey_counter : Nat

/-- Repository state: the `users` table and the next `OUTPUT INSERTED.id`
value. -/
structure Db where
  users : List UserEntry
  next_id : Int

/-- Model of `DatabaseService::get_user_by_username` (database.rs line
611): first row whose username matches. -/
def get_user_by_username (db : Db) (username : String) : Option UserEntry :=
  db.users.find? (fun u => u.username == username)

/-- Model of `DatabaseService::get_user_by_email` (database.rs line 656). -/
def get_user_by_email (db : Db) (email : String) : Option UserEntry :=
  db.users.find? (fun u => u.email == email)

/-- Model of `DatabaseService::create_user` (database.rs line 532).
Modelled from the spec: the repository insert is race-safe at the storage
layer and "fails `Conflict` on duplicate username/email" (spec §6) — the
SQL schema carrying those unique constraints is not part of the
repository's files, so the duplicate check lives here; on success the row
is appended and the fresh id returned. -/
def create_user (db : Db) (username email : String)
    (public_key credential_id : List Nat) (counter : Nat) :
    Except Unit (Int × Db) :=
  if (get_user_by_username db username).isSome ||
      (get_user_by_email db email).isSome then
    .error ()
  else
    .ok (db.next_id,
      ⟨db.users ++ [⟨db.next_id, username, email, public_key, credential_id, counter⟩],
        db.next_id + 1⟩)

/-- Model of `DatabaseService::update_user_counter` (database.rs line
701): set the counter on the matching row, reporting whether any row was
affected. -/
def update_user_counter (db : Db) (user_id : Int) (new_counter : Nat) :
    Db × Bool :=
  (⟨db.users.map (fun u =>
      if u.id == user_id then
        { u with passkey_counter := new_counter }
      else u), db.next_id⟩,
    db.users.any (fun u => u.id == user_id))

/-! ### Session state and HTTP handler results -/

/-- Content the source stores under the session key `registration_data`
(auth.rs lines 237-243), as a typed record: `register_begin` is the only
writer and always supplies exactly these fields. -/
structure RegistrationData where
  challenge : String
  user_id : String
  username : String
  email : String
  timestamp : Int

/-- Content the source stores under the session key `login_data` (auth.rs
lines 429-434). -/
structure LoginData where
  challenge : String
  user_id : Int
  username : String
  timestamp : Int

/-- Session of one client: the pending ceremonies and the authenticated
user id, each under its session key. -/
structure SessionState where
  registration_data : Option RegistrationData
  login_data : Option LoginData
  user_id : Option Int

/-- Outcome of an HTTP handler, by status class, carrying the `error`
string of the JSON body (or the success payload). -/
inductive HandlerResult (α : Type) where
  | ok (value : α)
  | badRequest (error : String)
  | conflict (error : String)
  | notFound (error : String)
  | unauthorized (error : String)
  | serverError (error : String)

/-- Whether a handler result is the 200 success case. -/
def HandlerResult.isOk {α : Type} : HandlerResult α → Bool
  | .ok _ => true
  | _ => false

/-- Whether a handler result is a 400 Bad Request. -/
def HandlerResult.isBadRequest {α : Type} : HandlerResult α → Bool
  | .badRequest _ => true
  | _ => false

/-- Whether a handler result is a 409 Conflict. -/
def HandlerResult.isConflict {α : Type} : HandlerResult α → Bool
  | .conflict _ => true
  | _ => false

/-! ### WebAuthn registration and login handlers (auth.rs lines 171-556)

The handlers are async Actix functions; their effects are the session and
the repository, so each is modelled as a pure function from (request,
session, repository, environment) to (result, session, repository).  The
randomly generated challenge and user-handle bytes and the current
timestamp are inputs.  Repository transport failures (connection-pool or
SQL-stream errors, the `Err` arms answering 500 "Database error") are not
modelled; `create_user`'s failure is its storage-level duplicate-key
conflict. -/

/-- Mirror of `RegisterBeginRequest` (models.rs lines 16-20). -/
structure RegisterBeginRequest where
  username : String
  email : String

/-- Descriptor answered by `register_begin` (the fields of
`RegisterBeginResponse` a claim can mention; the relying-party identity,
algorithm list and authenticator-selection preferences are constants or
environment values independent of the request). -/
structure RegisterBeginResponse where
  challenge : String
  user_id : String
  timeout : Nat
  user_name : String
  user_display_name : String
  attestation : String

/-- Syntactic rejection condition on the (normalized) username in
`register_begin` (auth.rs line 182): empty, or more than 255 bytes. -/
def usernameInvalid (username : String) : Bool :=
  username.isEmpty || 255 < username.utf8ByteSize

/-- Syntactic rejection condition on the (normalized) email in
`register_begin` (auth.rs line 188): empty, more than 320 bytes, or
without an `@`. -/
def emailInvalid (email : String) : Bool :=
  email.isEmpty || 320 < email.utf8ByteSize || !(email.contains '@')

/-- Model of `register_begin` (auth.rs lines 171-286): trim the username,
trim and lowercase the email, validate both syntactically (byte lengths,
`@`), check uniqueness of username then email against the repository,
then store the pending ceremony in the session and answer the
descriptor. -/
def register_begin (req : RegisterBeginRequest) (db : Db)
    (sess : SessionState) (challenge user_id_bytes : List Nat) (now : Int) :
    HandlerResult RegisterBeginResponse × SessionState :=
  let username := rustTrim req.username
  let email := rustToLowercase (rustTrim req.email)
  if usernameInvalid username then
    (.badRequest "Username must be between 1 and 255 characters", sess)
  else if emailInvalid email then
    (.badRequest "Invalid email address", sess)
  else if (get_user_by_username db username).isSome then
    (.conflict "Username already exists", sess)
  else if (get_user_by_email db email).isSome then
    (.conflict "Email already exists", sess)
  else
    let challenge_b64 := encode_base64 challenge
    let user_id_b64 := encode_base64 user_id_bytes
    let rd : RegistrationData := ⟨challenge_b64, user_id_b64, username, email, now⟩
    let sess' := { sess with registration_data := some rd }
    (.ok ⟨challenge_b64, user_id_b64, 60000, username, username, "none"⟩, sess')

/-- Mirror of `RegisterCompleteRequest` (models.rs lines 34-38). -/
structure RegisterCompleteRequest where
  user_id : String
  credential : PublicKeyCredential

/-- Mirror of `RegisterCompleteResponse` (models.rs lines 40-45). -/
structure RegisterCompleteResponse where
  user_id : Int
  username : String
  email : String

/-- Model of `register_complete` (auth.rs lines 288-397): require a
pending registration ceremony, match the claimed user handle against the
stored one, validate the credential against the stored challenge and the
configured origin, create the user row with initial counter 0, and only
then clear the ceremony and authenticate the session.  Any failure of the
user-creation step answers 500 "Failed to create user". -/
def register_complete (req : RegisterCompleteRequest) (sess : SessionState)
    (db : Db) (expected_origin : String) :
    HandlerResult RegisterCompleteResponse × SessionState × Db :=
  match sess.registration_data with
  | none => (.badRequest "No registration in progress", sess, db)
  | some rd =>
      if req.user_id ≠ rd.user_id then
        (.badRequest "User ID mismatch", sess, db)
      else
        match validate_registration_credential req.credential rd.challenge
            expected_origin with
        | .error _ => (.badRequest "Invalid credential", sess, db)
        | .ok (credential_id, public_key) =>
            match create_user db rd.username rd.email public_key
                credential_id 0 with
            | .error _ => (.serverError "Failed to create user", sess, db)
            | .ok (uid, db') =>
                (.ok ⟨uid, rd.username, rd.email⟩,
                  { sess with registration_data := none, user_id := some uid },
                  db')

/-- Mirror of `LoginCompleteRequest` (models.rs lines 60-64). -/
structure LoginCompleteRequest where
  username : String
  credential : PublicKeyCredential

/-- Mirror of `LoginCompleteResponse` (models.rs lines 66-71). -/
structure LoginCompleteResponse where
  user_id : Int
  username : String
  email : String

/-- Model of `login_complete` (auth.rs lines 458-556): require a pending
login ceremony, match the claimed username against the stored one, look
the user up, validate the assertion against the stored challenge, origin,
public key and counter, persist the new counter (failure there is
non-fatal in the source and the pure repository cannot fail), and only
then clear the ceremony and authenticate the session. -/
def login_complete (req : LoginCompleteRequest) (sess : SessionState)
    (db : Db) (expected_origin : String) :
    HandlerResult LoginCompleteResponse × SessionState × Db :=
  match sess.login_data with
  | none => (.badRequest "No login in progress", sess, db)
  | some ld =>
      if req.username ≠ ld.username then
        (.badRequest "Username mismatch", sess, db)
      else
        match get_user_by_username db req.username with
        | none => (.notFound "User not found", sess, db)
        | some user =>
            match validate_authentication_credential req.credential
                ld.challenge expected_origin user.passkey_public_key
                user.passkey_counter with
            | .error _ => (.unauthorized "Authentication failed", sess, db)
            | .ok new_counter =>
                let db' := (update_user_counter db user.id new_counter).1
                (.ok ⟨user.id, user.username, user.email⟩,
                  { sess with login_data := none, user_id := some user.id },
                  db')

/-! ### Concrete fixtures used by witnesses and counterexamples -/

/-- Unpadded URL-safe base64 of the client-data JSON text whose
`challenge` field is `"Q"` and whose `origin` field is
`"http://localhost:3000"`. -/
def goodClientData : String :=
  "eyJjaGFsbGVuZ2UiOiJRIiwib3JpZ2luIjoiaHR0cDovL2xvY2FsaG9zdDozMDAwIn0"

/-- Unpadded URL-safe base64 of the client-data JSON text whose
`challenge` field is `"X"` and whose `origin` field is `"bogus"`. -/
def badClientData : String :=
  "eyJjaGFsbGVuZ2UiOiJYIiwib3JpZ2luIjoiYm9ndXMifQ"

/-- Default `WEBAUTHN_ORIGIN` of the source. -/
def origin0 : String := "http://localhost:3000"

/-- Unpadded URL-safe base64 of 37 zero bytes: a minimal WebAuthn
authenticator-data buffer whose big-endian signature counter (bytes
33-36) is 0. -/
def ad37 : String := "AAAAAAAAAAAAAAAAAAAAAAAAAAAAAAAAAAAAAAAAAAAAAAAAAA"

/-- Assertion credential carrying `goodClientData` and an authenticator
data with counter 0. -/
def assertionCred0 : PublicKeyCredential :=
  ⟨"cred", "AA", "public-key", .AssertionResponse ⟨goodClientData, ad37, "sig", none⟩⟩

/-- Attestation credential carrying `goodClientData`, a well-formed
`raw_id` and an empty attestation payload. -/
def regCred0 : PublicKeyCredential :=
  ⟨"cred", "AA", "public-key", .AttestationResponse ⟨goodClientData, ""⟩⟩

/-- User row for `alice` with stored counter 0. -/
def user0 : UserEntry := ⟨1, "alice", "alice@x.com", [], [0], 0⟩

/-- Repository holding exactly `user0`. -/
def db0 : Db := ⟨[user0], 2⟩

/-- Session with a pending login ceremony for `alice` bound to challenge
`"Q"`. -/
def sessLogin0 : SessionState := ⟨none, some ⟨"Q", 1, "alice", 0⟩, none⟩

/-- Session with a pending registration ceremony for `alice` bound to
challenge `"Q"` and user handle `"AA"`. -/
def sessReg0 : SessionState := ⟨some ⟨"Q", "AA", "alice", "alice@x.com", 0⟩, none, none⟩

/-- Modelled from the spec: the WebAuthn authenticator-data layout places
a 32-bit big-endian signature counter at byte offsets 33-36 (after the
32-byte relying-party id hash and the flags byte).  The source never
parses this field — the spec requires it for the `CounterReplay` check —
so this definition exists only to state which counter a concrete response
carries. -/
def authDataCounter (ad : List Nat) : Option Nat :=
  if 37 ≤ ad.length then
    some (ad.getD 33 0 * 16777216 + ad.getD 34 0 * 65536 +
      ad.getD 35 0 * 256 + ad.getD 36 0)
  else none

/-! ### Claims -/

/-- C1: the spec requires `validate_login` to parse the
authenticator-data counter and reject with `CounterReplay` whenever the
received counter is not strictly greater than the stored one; the code
does neither.  At the concrete failing input — an assertion whose
authenticator data carries counter 0, submitted against stored counter
0 with matching challenge and origin — the full `login_complete` path
accepts, returns counter 1, clears the ceremony and authenticates the
session instead of failing. -/
theorem counter_replay_not_enforced :
    decode_base64 ad37 = some (List.replicate 37 0) ∧
    authDataCounter (List.replicate 37 0) = some 0 ∧
    user0.passkey_counter = 0 ∧
    validate_authentication_credential assertionCred0 "Q" origin0
      user0.passkey_public_key 0 = .ok 1 ∧
    login_complete ⟨"alice", assertionCred0⟩ sessLogin0 db0 origin0 =
      (.ok ⟨1, "alice", "alice@x.com"⟩,
        ⟨none, none, some 1⟩,
        ⟨[⟨1, "alice", "alice@x.com", [], [0], 1⟩], 2⟩) :=
  ⟨by decide, rfl, rfl, rfl, rfl⟩

/-- C2 (amended): any accepted assertion yields
`new_counter = (stored + 1) mod 2^32`, which is strictly greater than the
stored counter exactly as long as the `u32` increment does not overflow;
at stored counter `2^32 - 1` it wraps to 0. -/
theorem validate_login_new_counter (credential : PublicKeyCredential)
    (expected_challenge expected_origin : String)
    (stored_public_key : List Nat) (stored_counter n : Nat)
    (h : validate_authentication_credential credential expected_challenge
      expected_origin stored_public_key stored_counter = .ok n) :
    n = (stored_counter + 1) % 4294967296 ∧
      (stored_counter < 4294967295 → stored_counter < n) := by
  unfold validate_authentication_credential at h
  repeat' split at h
  all_goals try exact Except.noConfusion h
  injection h with h
  subst h
  exact ⟨rfl, fun hc => by omega⟩

/-- C2 witness: the amended theorem applied at a concrete accepted
assertion with stored counter 0. -/
theorem validate_login_new_counter_witness :
    1 = (0 + 1) % 4294967296 ∧ (0 < 4294967295 → 0 < 1) :=
  validate_login_new_counter assertionCred0 "Q" origin0 [] 0 1 rfl

/-- C2 counterexample: at stored counter `2^32 - 1` (a `u32`), the
accepted assertion yields new counter 0, which is not strictly greater
than the stored counter, so the claim as stated fails. -/
theorem validate_login_counter_wraps :
    validate_authentication_credential assertionCred0 "Q" origin0 []
      4294967295 = .ok 0 ∧ ¬ (4294967295 < 0) :=
  ⟨rfl, by omega⟩

/-- C9: the outcome of `validate_authentication_credential` depends only
on the client-data JSON, the expected challenge and origin, and the
stored counter; the stored public key and the assertion's
`authenticator_data` and `signature` fields can vary arbitrarily without
changing the result. -/
theorem validate_login_ignores_key_and_signature
    (id raw_id cred_type client_data_json ad₁ sig₁ ad₂ sig₂ : String)
    (user_handle : Option String) (expected_challenge expected_origin : String)
    (pk₁ pk₂ : List Nat) (stored_counter : Nat) :
    validate_authentication_credential
      ⟨id, raw_id, cred_type,
        .AssertionResponse ⟨client_data_json, ad₁, sig₁, user_handle⟩⟩
      expected_challenge expected_origin pk₁ stored_counter =
    validate_authentication_credential
      ⟨id, raw_id, cred_type,
        .AssertionResponse ⟨client_data_json, ad₂, sig₂, user_handle⟩⟩
      expected_challenge expected_origin pk₂ stored_counter := rfl

/-- C3: whenever the client-data payload of an attestation response
base64-decodes and parses to JSON whose `challenge` field is a string
different from the expected challenge, registration validation fails with
the challenge-mismatch error — whatever the origin field, the `raw_id`
and the attestation payload hold, since the challenge comparison runs
before any of them is looked at. -/
theorem validate_registration_challenge_mismatch
    (id raw_id cred_type : String) (resp : AuthenticatorAttestationResponse)
    (expected_challenge expected_origin : String)
    (bytes : List Nat) (j : Json) (received : String)
    (hdec : decode_base64 resp.client_data_json = some bytes)
    (hjson : parseJsonBytes bytes = some j)
    (hchal : j.getStr "challenge" = some received)
    (hne : received ≠ expected_challenge) :
    validate_registration_credential ⟨id, raw_id, cred_type, .AttestationResponse resp⟩
      expected_challenge expected_origin = .error .challengeMismatch := by
  unfold validate_registration_credential
  simp only [hdec, hjson, hchal]
  rw [if_pos hne]

/-- C3 witness: a concrete response whose decoded challenge is `"X"`
against expected challenge `"Q"`, with an invalid origin, a malformed
`raw_id` and a malformed attestation payload, still fails with precisely
the challenge mismatch. -/
theorem validate_registration_challenge_mismatch_witness :
    validate_registration_credential
      ⟨"cred", "!!!", "public-key", .AttestationResponse ⟨badClientData, "%"⟩⟩
      "Q" origin0 = .error .challengeMismatch :=
  validate_registration_challenge_mismatch "cred" "!!!" "public-key"
    ⟨badClientData, "%"⟩ "Q" origin0
    [123, 34, 99, 104, 97, 108, 108, 101, 110, 103, 101, 34, 58, 34, 88, 34,
      44, 34, 111, 114, 105, 103, 105, 110, 34, 58, 34, 98, 111, 103, 117,
      115, 34, 125]
    (.obj [("challenge", .str "X"), ("origin", .str "bogus")])
    "X" (by decide) (by rfl) rfl (by decide)

/-- C8 counterexample: an attestation payload of 0 bytes (fewer than 65)
is not rejected — validation succeeds, substituting the fixed 65-byte
zero placeholder key, so the claim's "rejects every response whose
payload is too short" is false at this input. -/
theorem validate_registration_short_payload_accepted :
    decode_base64 "" = some [] ∧ ([] : List Nat).length < 65 ∧
    validate_registration_credential regCred0 "Q" origin0 =
      .ok ([0], List.replicate 65 0) :=
  ⟨rfl, by decide, rfl⟩

/-- C8 (amended): when every check up to the attestation decode passes,
validation always succeeds, and the extracted placeholder key is a
deterministic function of the decoded payload: its first 65 bytes when it
holds at least 65, and the fixed all-zero 65-byte key otherwise (the
source's development fallback) — short payloads are not rejected. -/
theorem validate_registration_key_extraction
    (id raw_id cred_type : String) (resp : AuthenticatorAttestationResponse)
    (expected_challenge expected_origin : String)
    (bytes : List Nat) (j : Json) (received_origin : String)
    (credential_id attestation_object : List Nat)
    (hdec : decode_base64 resp.client_data_json = some bytes)
    (hjson : parseJsonBytes bytes = some j)
    (hchal : j.getStr "challenge" = some expected_challenge)
    (horig : j.getStr "origin" = some received_origin)
    (horigeq : received_origin = expected_origin)
    (hrid : decode_base64 raw_id = some credential_id)
    (hatt : decode_base64 resp.attestation_object = some attestation_object) :
    validate_registration_credential ⟨id, raw_id, cred_type, .AttestationResponse resp⟩
      expected_challenge expected_origin =
      .ok (credential_id,
        if 65 ≤ attestation_object.length then attestation_object.take 65
        else List.replicate 65 0) := by
  unfold validate_registration_credential
  simp only [hdec, hjson, hchal, horig, horigeq, hrid, hatt]
  rw [if_neg (by simp), if_neg (by simp)]

/-- C8 witness: the amended theorem at a concrete 70-byte payload (the
bytes 0..69): the key is the payload's first 65 bytes. -/
theorem validate_registration_key_extraction_witness :
    validate_registration_credential
      ⟨"cred", "AA", "public-key",
        .AttestationResponse ⟨goodClientData,
          "AAECAwQFBgcICQoLDA0ODxAREhMUFRYXGBkaGxwdHh8gISIjJCUmJygpKissLS4vMDEyMzQ1Njc4OTo7PD0-P0BBQkNERQ"⟩⟩
      "Q" origin0 =
      .ok ([0],
        if 65 ≤ (List.range 70).length then (List.range 70).take 65
        else List.replicate 65 0) :=
  validate_registration_key_extraction "cred" "AA" "public-key"
    ⟨goodClientData,
      "AAECAwQFBgcICQoLDA0ODxAREhMUFRYXGBkaGxwdHh8gISIjJCUmJygpKissLS4vMDEyMzQ1Njc4OTo7PD0-P0BBQkNERQ"⟩
    "Q" origin0
    [123, 34, 99, 104, 97, 108, 108, 101, 110, 103, 101, 34, 58, 34, 81, 34,
      44, 34, 111, 114, 105, 103, 105, 110, 34, 58, 34, 104, 116, 116, 112,
      58, 47, 47, 108, 111, 99, 97, 108, 104, 111, 115, 116, 58, 51, 48, 48,
      48, 34, 125]
    (.obj [("challenge", .str "Q"), ("origin", .str origin0)])
    origin0 [0] (List.range 70) (by decide) (by rfl) rfl rfl rfl (by decide) (by decide)

/-- C5 counterexample: with `alice` already present in the repository
(taken between begin and complete) and an otherwise valid completion, the
operation answers the generic 500 "Failed to create user" — not a 409
Conflict — though indeed no user row is created and the ceremony is left
intact. -/
theorem register_complete_race_counterexample :
    (get_user_by_username db0 "alice").isSome = true ∧
    register_complete ⟨"AA", regCred0⟩ sessReg0 db0 origin0 =
      (.serverError "Failed to create user", sessReg0, db0) ∧
    (register_complete ⟨"AA", regCred0⟩ sessReg0 db0 origin0).1.isConflict = false :=
  ⟨rfl, rfl, rfl⟩

/-- C5 (amended): when credential validation passes but the repository
user-creation step fails because the username or email was taken between
begin and complete, `register_complete` fails with the generic internal
error 500 "Failed to create user" (the source does not map the
repository conflict to a 409 Conflict), and no user is created: the
repository and the session are left unchanged. -/
theorem register_complete_race_is_500
    (req : RegisterCompleteRequest) (sess : SessionState) (db : Db)
    (expected_origin : String) (rd : RegistrationData)
    (credential_id public_key : List Nat)
    (hrd : sess.registration_data = some rd)
    (hid : req.user_id = rd.user_id)
    (hval : validate_registration_credential req.credential rd.challenge
      expected_origin = .ok (credential_id, public_key))
    (hdup : (get_user_by_username db rd.username).isSome = true ∨
      (get_user_by_email db rd.email).isSome = true) :
    register_complete req sess db expected_origin =
      (.serverError "Failed to create user", sess, db) := by
  simp only [register_complete, hrd]
  rw [if_neg (by simp [hid])]
  simp only [hval, create_user]
  rw [if_pos (by rcases hdup with h | h <;> simp [h])]

/-- C5 witness: the amended theorem at the concrete race input of the
counterexample. -/
theorem register_complete_race_is_500_witness :
    register_complete ⟨"AA", regCred0⟩ sessReg0 db0 origin0 =
      (.serverError "Failed to create user", sessReg0, db0) :=
  register_complete_race_is_500 ⟨"AA", regCred0⟩ sessReg0 db0 origin0
    ⟨"Q", "AA", "alice", "alice@x.com", 0⟩ [0] (List.replicate 65 0)
    rfl rfl rfl (Or.inl rfl)

/-- C6: no completion call leaves the pending ceremony partially
modified: `register_complete` either succeeds and clears the pending
registration, or fails and leaves the whole session and repository
exactly as they were (so the ceremony is intact for retry), and
`login_complete` does the same with the pending login. -/
theorem completion_ceremony_atomic
    (rreq : RegisterCompleteRequest) (lreq : LoginCompleteRequest)
    (sess : SessionState) (db : Db) (expected_origin : String) :
    (((register_complete rreq sess db expected_origin).1.isOk = true ∧
        (register_complete rreq sess db expected_origin).2.1.registration_data = none) ∨
      ((register_complete rreq sess db expected_origin).1.isOk = false ∧
        (register_complete rreq sess db expected_origin).2.1 = sess ∧
        (register_complete rreq sess db expected_origin).2.2 = db)) ∧
    (((login_complete lreq sess db expected_origin).1.isOk = true ∧
        (login_complete lreq sess db expected_origin).2.1.login_data = none) ∨
      ((login_complete lreq sess db expected_origin).1.isOk = false ∧
        (login_complete lreq sess db expected_origin).2.1 = sess ∧
        (login_complete lreq sess db expected_origin).2.2 = db)) := by
  constructor
  · unfold register_complete
    split
    · exact Or.inr ⟨rfl, rfl, rfl⟩
    · split
      · exact Or.inr ⟨rfl, rfl, rfl⟩
      · split
        · exact Or.inr ⟨rfl, rfl, rfl⟩
        · split
          · exact Or.inr ⟨rfl, rfl, rfl⟩
          · exact Or.inl ⟨rfl, rfl⟩
  · unfold login_complete
    split
    · exact Or.inr ⟨rfl, rfl, rfl⟩
    · split
      · exact Or.inr ⟨rfl, rfl, rfl⟩
      · split
        · exact Or.inr ⟨rfl, rfl, rfl⟩
        · split
          · exact Or.inr ⟨rfl, rfl, rfl⟩
          · exact Or.inl ⟨rfl, rfl⟩

/-- Euro sign, a character whose UTF-8 encoding takes 3 bytes. -/
def euroChar : Char := Char.ofNat 8364

/-- Username of 86 euro signs: 86 characters but 258 UTF-8 bytes. -/
def wideUsername : String := String.mk (List.replicate 86 euroChar)

/-- C7 counterexample: `register_begin` measures the username in UTF-8
bytes, not characters — a username of 86 characters (each 3 bytes,
258 bytes in total, none of them whitespace) is rejected as invalid
input although it is non-empty and well within 255 characters, so the
claim's "longer than 255 characters" is false at this input. -/
theorem register_begin_byte_length_counterexample :
    wideUsername.length = 86 ∧ wideUsername.isEmpty = false ∧
    wideUsername.utf8ByteSize = 258 ∧
    (register_begin ⟨wideUsername, "a@b"⟩ ⟨[], 1⟩ ⟨none, none, none⟩ [] [] 0).1 =
      .badRequest "Username must be between 1 and 255 characters" :=
  ⟨by decide, by decide, by decide, by rfl⟩

/-- C7 (amended): with lengths measured in UTF-8 bytes (`str::len`), the
characterization is exact: `register_begin` answers 400 precisely when
the trimmed username is empty or over 255 bytes or the normalized email
is empty, over 320 bytes or without `@`; it answers 409 precisely when
the syntactic checks pass and the username or email already exists; it
succeeds precisely when the syntactic and both uniqueness checks pass. -/
theorem register_begin_validation (req : RegisterBeginRequest) (db : Db)
    (sess : SessionState) (challenge user_id_bytes : List Nat) (now : Int) :
    ((register_begin req db sess challenge user_id_bytes now).1.isBadRequest =
      (usernameInvalid (rustTrim req.username) ||
        emailInvalid (rustToLowercase (rustTrim req.email)))) ∧
    ((register_begin req db sess challenge user_id_bytes now).1.isConflict =
      (!usernameInvalid (rustTrim req.username) &&
        !emailInvalid (rustToLowercase (rustTrim req.email)) &&
        ((get_user_by_username db (rustTrim req.username)).isSome ||
          (get_user_by_email db (rustToLowercase (rustTrim req.email))).isSome))) ∧
    ((register_begin req db sess challenge user_id_bytes now).1.isOk =
      (!usernameInvalid (rustTrim req.username) &&
        !emailInvalid (rustToLowercase (rustTrim req.email)) &&
        !(get_user_by_username db (rustTrim req.username)).isSome &&
        !(get_user_by_email db (rustToLowercase (rustTrim req.email))).isSome)) := by
  simp only [register_begin]
  repeat' split
  all_goals
    simp_all [HandlerResult.isBadRequest, HandlerResult.isConflict,
      HandlerResult.isOk]

/-- Helper: characters at or below 122 survive the `Char.ofNat` round
trip. -/
theorem char_ofNat_toNat_small :
    ∀ m, m < 123 → 97 ≤ m → (Char.ofNat m).toNat = m := by decide

/-- Helper: the ASCII lowercase map never outputs an ASCII uppercase
letter. -/
theorem rustToLowerChar_not_upper (a : Char) :
    ¬(65 ≤ (rustToLowerChar a).toNat ∧ (rustToLowerChar a).toNat ≤ 90) := by
  unfold rustToLowerChar
  split
  · next h =>
    rw [char_ofNat_toNat_small (a.toNat + 32) (by omega) (by omega)]
    omega
  · next h => omega

/-- Helper: `dropWhile` empties a list all of whose elements satisfy the
predicate. -/
theorem dropWhile_eq_nil_of_all {p : Char → Bool} :
    ∀ l : List Char, (∀ c ∈ l, p c = true) → l.dropWhile p = [] := by
  intro l h
  induction l with
  | nil => rfl
  | cons c cs ih =>
    rw [List.dropWhile_cons, if_pos (h c (by simp))]
    exact ih (fun x hx => h x (by simp [hx]))

/-- C10: `register_begin` normalizes before any use of its inputs: its
entire outcome depends only on the trimmed username and the trimmed,
lowercased email (first conjunct); on success the stored pending ceremony
carries exactly the normalized values (second conjunct); the normalized
email can never contain an ASCII uppercase letter (third conjunct); and a
username consisting solely of whitespace is rejected as empty (fourth
conjunct). -/
theorem register_begin_normalizes
    (req req' : RegisterBeginRequest) (db : Db) (sess : SessionState)
    (challenge user_id_bytes : List Nat) (now : Int) :
    (rustTrim req.username = rustTrim req'.username →
      rustToLowercase (rustTrim req.email) = rustToLowercase (rustTrim req'.email) →
      register_begin req db sess challenge user_id_bytes now =
        register_begin req' db sess challenge user_id_bytes now) ∧
    ((register_begin req db sess challenge user_id_bytes now).1.isOk = true →
      (register_begin req db sess challenge user_id_bytes now).2.registration_data =
        some ⟨encode_base64 challenge, encode_base64 user_id_bytes,
          rustTrim req.username, rustToLowercase (rustTrim req.email), now⟩) ∧
    (∀ c ∈ (rustToLowercase (rustTrim req.email)).data,
      ¬(65 ≤ c.toNat ∧ c.toNat ≤ 90)) ∧
    ((∀ c ∈ req.username.data, rustIsWhitespace c = true) →
      (register_begin req db sess challenge user_id_bytes now).1 =
        .badRequest "Username must be between 1 and 255 characters") := by
  refine ⟨?_, ?_, ?_, ?_⟩
  · intro h1 h2
    simp only [register_begin, h1, h2]
  · simp only [register_begin]
    repeat' split
    all_goals simp_all [HandlerResult.isOk]
  · intro c hc
    simp only [rustToLowercase, List.mem_map] at hc
    obtain ⟨a, _, rfl⟩ := hc
    exact rustToLowerChar_not_upper a
  · intro hws
    have htrim : rustTrim req.username = "" := by
      unfold rustTrim
      rw [dropWhile_eq_nil_of_all _ hws]
      rfl
    simp only [register_begin, htrim]
    rfl

end Thalora
